import Mathlib

/-!
Verification development for the Holzworth multi-device session layer
(`HolzworthMulti.h`).  The repository ships only the C declaration header;
the session-manager behaviour is therefore modelled from the design
specification, faithful to its words, and the claims are settled against
that model.  Function names follow the header where Lean allows it
(`deviceAttached`, `openDevice`, `close_all`, `usbCommWrite`, `setPower`,
`setPowerS`, `readPower`, `setPhase`, `setFrequency`, `readFrequency`, ...).
-/

/-- Modelled from the spec: the two incompatible command dialects
("HS9000 ASCII command-string vs. Legacy fixed-parameter").  The header's
comments split the surface the same way (lines 13, 19, 22). -/
inductive Dialect
  | HS9000
  | Legacy
deriving DecidableEq

/-- Modelled from the spec: per-device lifecycle state
`enum {Discovered, Open, Closed, Faulted}` (spec section 3). -/
inductive RecState
  | Discovered
  | Opened
  | Closed
  | Faulted
deriving DecidableEq

/-- Modelled from the spec: the error taxonomy of spec section 7. -/
inductive HolzError
  | DeviceNotFound
  | AlreadyOpen
  | OpenTimeout
  | TransportError
  | DecodeError
  | UnsupportedOperation
  | DeviceFaulted
deriving DecidableEq

/-- Modelled from the spec: the instrument-side parameters a Legacy device
holds (power on/off, power, phase, frequency, FM/PM deviation), with the
widths the spec declares: "phase and power are 16-bit signed, frequency is
64-bit signed".  Machine integers are modelled as `Int`; the width only
constrains the representable range (see `inRange16` / `inRange64`). -/
structure DeviceState where
  powerOn : Bool
  power : Int
  phase : Int
  frequency : Int
  fmDeviation : Int
  pmDeviation : Int
deriving DecidableEq

/-- Initial parameter state of a freshly opened device. -/
def DeviceState.start : DeviceState :=
  { powerOn := false, power := 0, phase := 0, frequency := 0
    fmDeviation := 0, pmDeviation := 0 }

/-- Modelled from the spec: a `DeviceRecord` — serial (primary key), opaque
transport handle, dialect fixed at discovery, lifecycle state (spec
section 3), plus the instrument parameters behind the handle. -/
structure DeviceRecord where
  serial : String
  handle : Nat
  dialect : Dialect
  recState : RecState
  dev : DeviceState
deriving DecidableEq

/-- Modelled from the spec: the Session Manager / Registry state: the
transport's view of attached serials (with their dialect as the capability
probe would determine it), the registry of device records, a counter
producing fresh opaque handles, and a count of Transport connections
created so far (used to state "does not create a second Transport
connection"). -/
structure Manager where
  attached : List (String × Dialect)
  records : List DeviceRecord
  nextHandle : Nat
  connections : Nat
deriving DecidableEq

/-- 16-bit signed representable range (`short` in the header). -/
def inRange16 (v : Int) : Prop := -(2 ^ 15) ≤ v ∧ v < 2 ^ 15

/-- 64-bit signed representable range (`long long` in the header). -/
def inRange64 (v : Int) : Prop := -(2 ^ 63) ≤ v ∧ v < 2 ^ 63

/-- Registry lookup by serial (the spec's `get(serial)`), read-only. -/
def findRecord (m : Manager) (s : String) : Option DeviceRecord :=
  m.records.find? (fun r => r.serial == s)

/-- Modelled from the spec: `isAttached(serial) -> bool`, "true iff the
transport reports the serial currently connected; does not mutate state"
(header line 14, `deviceAttached`).  The state is threaded explicitly so
that non-mutation is a provable statement, not a typing convention. -/
def deviceAttached (m : Manager) (s : String) : Manager × Bool :=
  (m, (m.attached.find? (fun p => p.1 == s)).isSome)

/-- Modelled from the spec: `open(serial)` (header line 15, `openDevice`):
reuses an already-`Open` record as a no-op success returning the existing
handle; reopens a known record otherwise; for an unknown serial consults
the transport's attached set, failing with `DeviceNotFound` when absent,
and otherwise allocates a fresh record, handle and Transport connection. -/
def openDevice (m : Manager) (s : String) : Manager × Except HolzError Nat :=
  match findRecord m s with
  | some r =>
    if r.recState = RecState.Opened then
      (m, Except.ok r.handle)
    else
      ({ m with
          records := m.records.map
            (fun q => if q.serial == s then { q with recState := RecState.Opened } else q)
          connections := m.connections + 1 },
        Except.ok r.handle)
  | none =>
    match m.attached.find? (fun p => p.1 == s) with
    | none => (m, Except.error HolzError.DeviceNotFound)
    | some p =>
      ({ m with
          records :=
            { serial := s, handle := m.nextHandle, dialect := p.2
              recState := RecState.Opened, dev := DeviceState.start } :: m.records
          nextHandle := m.nextHandle + 1
          connections := m.connections + 1 },
        Except.ok m.nextHandle)

/-- Modelled from the spec: `closeAll()` (header line 17, `close_all`):
"closes every open record and clears the registry; idempotent; safe to
call with zero open devices"; `closeAll() -> void` always succeeds. -/
def close_all (m : Manager) : Manager × Except HolzError Unit :=
  ({ m with records := [] }, Except.ok ())

/-- Modelled from the spec: the Session Manager's routing step — "look up
the DeviceRecord via the Registry; if absent, fail with `DeviceNotFound`";
a `Faulted` device fails fast with `DeviceFaulted`; only an `Open` record
accepts commands. -/
def lookupOpen (m : Manager) (s : String) : Except HolzError DeviceRecord :=
  match findRecord m s with
  | none => Except.error HolzError.DeviceNotFound
  | some r =>
    match r.recState with
    | RecState.Opened => Except.ok r
    | RecState.Faulted => Except.error HolzError.DeviceFaulted
    | _ => Except.error HolzError.DeviceNotFound

/-- Modelled from the spec: a Legacy-dialect setter — route to the device,
reject a dialect mismatch with `UnsupportedOperation`, otherwise update the
instrument parameter and return status 0 (success). -/
def legacySet (m : Manager) (s : String) (upd : DeviceState → DeviceState) :
    Manager × Except HolzError Int :=
  match lookupOpen m s with
  | Except.error e => (m, Except.error e)
  | Except.ok r =>
    match r.dialect with
    | Dialect.HS9000 => (m, Except.error HolzError.UnsupportedOperation)
    | Dialect.Legacy =>
      ({ m with
          records := m.records.map
            (fun q => if q.serial == s then { q with dev := upd q.dev } else q) },
        Except.ok 0)

/-- Modelled from the spec: a Legacy-dialect read — route, reject a dialect
mismatch, otherwise decode the instrument's reply as the stored value. -/
def legacyRead (m : Manager) (s : String) (proj : DeviceState → Int) :
    Manager × Except HolzError Int :=
  match lookupOpen m s with
  | Except.error e => (m, Except.error e)
  | Except.ok r =>
    match r.dialect with
    | Dialect.HS9000 => (m, Except.error HolzError.UnsupportedOperation)
    | Dialect.Legacy => (m, Except.ok (proj r.dev))

/-- Header line 23: `RFPowerOn` (Legacy only). -/
def RFPowerOn (m : Manager) (s : String) : Manager × Except HolzError Int :=
  legacySet m s (fun d => { d with powerOn := true })

/-- Header line 24: `RFPowerOff` (Legacy only). -/
def RFPowerOff (m : Manager) (s : String) : Manager × Except HolzError Int :=
  legacySet m s (fun d => { d with powerOn := false })

/-- Header line 25: `isRFPowerOn` (Legacy only); 1 means on, 0 means off
(spec section 8 scenario). -/
def isRFPowerOn (m : Manager) (s : String) : Manager × Except HolzError Int :=
  legacyRead m s (fun d => if d.powerOn then 1 else 0)

/-- Header line 26: `setPower` (Legacy only, 16-bit signed argument). -/
def setPower (m : Manager) (s : String) (v : Int) : Manager × Except HolzError Int :=
  legacySet m s (fun d => { d with power := v })

/-- Header line 28: `readPower` (Legacy only). -/
def readPower (m : Manager) (s : String) : Manager × Except HolzError Int :=
  legacyRead m s (fun d => d.power)

/-- Header line 29: `setPhase` (Legacy only, 16-bit signed argument). -/
def setPhase (m : Manager) (s : String) (v : Int) : Manager × Except HolzError Int :=
  legacySet m s (fun d => { d with phase := v })

/-- Header line 31: `readPhase` (Legacy only). -/
def readPhase (m : Manager) (s : String) : Manager × Except HolzError Int :=
  legacyRead m s (fun d => d.phase)

/-- Header line 32: `setFrequency` (Legacy only, 64-bit signed argument). -/
def setFrequency (m : Manager) (s : String) (v : Int) : Manager × Except HolzError Int :=
  legacySet m s (fun d => { d with frequency := v })

/-- Header line 35: `readFrequency` (Legacy only). -/
def readFrequency (m : Manager) (s : String) : Manager × Except HolzError Int :=
  legacyRead m s (fun d => d.frequency)

/-- Header line 43: `setFMDeviation` (Legacy only). -/
def setFMDeviation (m : Manager) (s : String) (v : Int) : Manager × Except HolzError Int :=
  legacySet m s (fun d => { d with fmDeviation := v })

/-- Header line 45: `setPMDeviation` (Legacy only). -/
def setPMDeviation (m : Manager) (s : String) (v : Int) : Manager × Except HolzError Int :=
  legacySet m s (fun d => { d with pmDeviation := v })

/-- Modelled from the spec: `usbCommWrite` (header line 20, HS9000 series
only): the single generic "write command string, get string reply"
primitive; against a Legacy-dialect device it yields
`UnsupportedOperation`.  The content of the HS9000 acknowledgment string
comes from the external Transport/instrument and is modelled as an echo of
the command. -/
def usbCommWrite (m : Manager) (s : String) (pBuf : String) :
    Manager × Except HolzError String :=
  match lookupOpen m s with
  | Except.error e => (m, Except.error e)
  | Except.ok r =>
    match r.dialect with
    | Dialect.Legacy => (m, Except.error HolzError.UnsupportedOperation)
    | Dialect.HS9000 => (m, Except.ok pBuf)

/-- Modelled from the spec: the string-to-value parse step shared by all
string-encoded Legacy setters: "string forms accept a human-readable
numeral or unit-suffixed string and must parse it into the same internal
representation before transmission".  Parses an optional sign followed by
at least one decimal digit and ignores a trailing unit suffix. -/
def parseValue (str : String) : Option Int :=
  let cs := str.toList
  let signDigits : Bool × List Char :=
    match cs with
    | '-' :: rest => (true, rest)
    | _ => (false, cs)
  let ds := signDigits.2.takeWhile Char.isDigit
  if ds.isEmpty then none
  else
    let n : Nat := ds.foldl (fun acc c => acc * 10 + (c.toNat - 48)) 0
    some (if signDigits.1 then -(n : Int) else (n : Int))

/-- Header line 27: `setPowerS` — the string-encoded power setter, written
out directly: parse the string, then route/update exactly as the numeric
setter does; a string that does not parse yields `DecodeError`. -/
def setPowerS (m : Manager) (s : String) (str : String) :
    Manager × Except HolzError Int :=
  match parseValue str with
  | none => (m, Except.error HolzError.DecodeError)
  | some v =>
    match lookupOpen m s with
    | Except.error e => (m, Except.error e)
    | Except.ok r =>
      match r.dialect with
      | Dialect.HS9000 => (m, Except.error HolzError.UnsupportedOperation)
      | Dialect.Legacy =>
        ({ m with
            records := m.records.map
              (fun q => if q.serial == s then { q with dev := { q.dev with power := v } } else q) },
          Except.ok 0)

/-- Header line 30: `setPhaseS` — string-encoded phase setter. -/
def setPhaseS (m : Manager) (s : String) (str : String) :
    Manager × Except HolzError Int :=
  match parseValue str with
  | none => (m, Except.error HolzError.DecodeError)
  | some v =>
    match lookupOpen m s with
    | Except.error e => (m, Except.error e)
    | Except.ok r =>
      match r.dialect with
      | Dialect.HS9000 => (m, Except.error HolzError.UnsupportedOperation)
      | Dialect.Legacy =>
        ({ m with
            records := m.records.map
              (fun q => if q.serial == s then { q with dev := { q.dev with phase := v } } else q) },
          Except.ok 0)

/-- Header line 33: `setFrequencyS` — string-encoded frequency setter. -/
def setFrequencyS (m : Manager) (s : String) (str : String) :
    Manager × Except HolzError Int :=
  match parseValue str with
  | none => (m, Except.error HolzError.DecodeError)
  | some v =>
    match lookupOpen m s with
    | Except.error e => (m, Except.error e)
    | Except.ok r =>
      match r.dialect with
      | Dialect.HS9000 => (m, Except.error HolzError.UnsupportedOperation)
      | Dialect.Legacy =>
        ({ m with
            records := m.records.map
              (fun q => if q.serial == s then { q with dev := { q.dev with frequency := v } } else q) },
          Except.ok 0)

/-- Header line 44: `setFMDeviationS` — string-encoded FM deviation setter. -/
def setFMDeviationS (m : Manager) (s : String) (str : String) :
    Manager × Except HolzError Int :=
  match parseValue str with
  | none => (m, Except.error HolzError.DecodeError)
  | some v =>
    match lookupOpen m s with
    | Except.error e => (m, Except.error e)
    | Except.ok r =>
      match r.dialect with
      | Dialect.HS9000 => (m, Except.error HolzError.UnsupportedOperation)
      | Dialect.Legacy =>
        ({ m with
            records := m.records.map
              (fun q => if q.serial == s then { q with dev := { q.dev with fmDeviation := v } } else q) },
          Except.ok 0)

/-- Header line 46: `setPMDeviationS` — string-encoded PM deviation setter. -/
def setPMDeviationS (m : Manager) (s : String) (str : String) :
    Manager × Except HolzError Int :=
  match parseValue str with
  | none => (m, Except.error HolzError.DecodeError)
  | some v =>
    match lookupOpen m s with
    | Except.error e => (m, Except.error e)
    | Except.ok r =>
      match r.dialect with
      | Dialect.HS9000 => (m, Except.error HolzError.UnsupportedOperation)
      | Dialect.Legacy =>
        ({ m with
            records := m.records.map
              (fun q => if q.serial == s then { q with dev := { q.dev with pmDeviation := v } } else q) },
          Except.ok 0)

/-- Modelled from the spec: the per-device command channels of spec
sections 4.3 and 5.  Each serial owns a FIFO queue of pending commands
(identified by `Nat` ids in submission order); completed commands are
appended to a global completion trace. -/
structure ChanState where
  queues : String → List Nat
  trace : List (String × Nat)

/-- Modelled from the spec: one scheduling step of the interleaving model.
A step completes the head command of some serial's queue, provided that
command is not blocked (a blocked command models a slow or suspended
Transport call on that serial); no step touches any other serial's queue.
"Each DeviceRecord owns an independent sequential execution context". -/
inductive ChanStep (blocked : String → Nat → Bool) : ChanState → ChanState → Prop
  | complete (st : ChanState) (s : String) (c : Nat) (rest : List Nat)
      (hq : st.queues s = c :: rest) (hb : blocked s c = false) :
      ChanStep blocked st
        { queues := fun t => if t = s then rest else st.queues t
          trace := st.trace ++ [(s, c)] }

/-- Reachability under the channel scheduler. -/
def ChanReach (blocked : String → Nat → Bool) (a b : ChanState) : Prop :=
  Relation.ReflTransGen (ChanStep blocked) a b

/-- The completions observed for one serial, in completion order. -/
def completionsFor (s : String) (tr : List (String × Nat)) : List Nat :=
  (tr.filter (fun p => p.1 == s)).map Prod.snd

/-- A `find?`-under-map lemma: updating every record matching a serial with
a serial-preserving function commutes with looking the serial up. -/
theorem find?_serial_map (l : List DeviceRecord) (s : String)
    (f : DeviceRecord → DeviceRecord) (hf : ∀ r, (f r).serial = r.serial) :
    (l.map (fun q => if q.serial == s then f q else q)).find? (fun q => q.serial == s)
      = (l.find? (fun q => q.serial == s)).map f := by
  induction l with
  | nil => rfl
  | cons a l ih =>
    cases hab : (a.serial == s) with
    | true =>
      have ha : a.serial = s := by simpa using hab
      have hfa : ((f a).serial == s) = true := by simp [hf, ha]
      rw [List.map_cons, if_pos hab]
      simp only [List.find?_cons, hfa, hab]
      rfl
    | false =>
      have ha : ¬ a.serial = s := by simpa using hab
      rw [List.map_cons, if_neg (by simpa using hab)]
      simp only [List.find?_cons, hab]
      exact ih

/-- Membership characterisation of the attached-set lookup. -/
theorem attachedLookup_isSome (l : List (String × Dialect)) (s : String) :
    (l.find? (fun p => p.1 == s)).isSome = true ↔ ∃ d, (s, d) ∈ l := by
  rw [List.find?_isSome]
  constructor
  · rintro ⟨x, hx, hpx⟩
    refine ⟨x.2, ?_⟩
    have : x.1 = s := by simpa using hpx
    simpa [← this] using hx
  · rintro ⟨d, hd⟩
    exact ⟨(s, d), hd, by simp⟩

/-- Trace bookkeeping: the completions for a serial after one more
completion event. -/
theorem completionsFor_append_single (s s1 : String) (tr : List (String × Nat)) (c : Nat) :
    completionsFor s (tr ++ [(s1, c)]) =
      completionsFor s tr ++ (if s1 = s then [c] else []) := by
  by_cases h : s1 = s <;> simp [completionsFor, List.filter_append, h]

/-- An already-open record makes `openDevice` a no-op success returning the
existing handle. -/
theorem openDevice_of_open (m : Manager) (s : String) (r : DeviceRecord)
    (hfind : findRecord m s = some r) (hst : r.recState = RecState.Opened) :
    openDevice m s = (m, Except.ok r.handle) := by
  simp [openDevice, hfind, hst]

/-- After any successful `openDevice`, the resulting registry holds an
`Opened` record for the serial carrying the returned handle. -/
theorem openDevice_ok_state (m : Manager) (s : String) (h : Nat)
    (hok : (openDevice m s).2 = Except.ok h) :
    ∃ r, findRecord (openDevice m s).1 s = some r ∧
      r.recState = RecState.Opened ∧ r.handle = h := by
  cases hr : findRecord m s with
  | some r =>
    by_cases hst : r.recState = RecState.Opened
    · refine ⟨r, ?_, hst, ?_⟩
      · simp [openDevice, hr, hst]
      · simp [openDevice, hr, hst] at hok
        show r.handle = h
        omega
    · refine ⟨{ r with recState := RecState.Opened }, ?_, rfl, ?_⟩
      · have hmap := find?_serial_map m.records s
          (fun q => { q with recState := RecState.Opened }) (fun q => rfl)
        simp only [openDevice, hr, hst, if_false]
        unfold findRecord at hr ⊢
        simp only []
        rw [hmap, hr]
        rfl
      · simp [openDevice, hr, hst] at hok
        show r.handle = h
        omega
  | none =>
    cases ha : m.attached.find? (fun p => p.1 == s) with
    | none => simp [openDevice, hr, ha] at hok
    | some p =>
      refine ⟨{ serial := s, handle := m.nextHandle, dialect := p.2
                recState := RecState.Opened, dev := DeviceState.start }, ?_, rfl, ?_⟩
      · simp only [openDevice, hr, ha]
        unfold findRecord
        simp [List.find?_cons]
      · simp [openDevice, hr, ha] at hok
        show m.nextHandle = h
        omega

/-- A sample registry entry: an open Legacy-dialect device. -/
def recL : DeviceRecord :=
  { serial := "H1234", handle := 0, dialect := Dialect.Legacy
    recState := RecState.Opened, dev := DeviceState.start }

/-- A sample registry entry: an open HS9000-dialect device. -/
def recH : DeviceRecord :=
  { serial := "HS01", handle := 1, dialect := Dialect.HS9000
    recState := RecState.Opened, dev := DeviceState.start }

/-- A sample manager with one open Legacy device and one open HS9000
device. -/
def sampleM : Manager :=
  { attached := [("H1234", Dialect.Legacy), ("HS01", Dialect.HS9000)]
    records := [recL, recH], nextHandle := 2, connections := 2 }

/-- A sample manager with two attached but not yet opened devices. -/
def startM : Manager :=
  { attached := [("H1234", Dialect.Legacy), ("HS01", Dialect.HS9000)]
    records := [], nextHandle := 0, connections := 0 }

/-- C1: an operation not supported by the device's dialect returns the
`UnsupportedOperation` error: the HS9000-only `usbCommWrite` raw-command
primitive against an open Legacy-dialect device, and the Legacy-only
`setPhase` against an open HS9000-dialect device, both return
`UnsupportedOperation` and leave the manager unchanged — never a crash
(the model is a total function) and never a silent no-op success. -/
theorem dialect_mismatch_unsupported (m : Manager) (s : String) (r : DeviceRecord)
    (hfind : findRecord m s = some r) (hst : r.recState = RecState.Opened) :
    (r.dialect = Dialect.Legacy →
      ∀ pBuf, usbCommWrite m s pBuf = (m, Except.error HolzError.UnsupportedOperation)) ∧
    (r.dialect = Dialect.HS9000 →
      ∀ v, setPhase m s v = (m, Except.error HolzError.UnsupportedOperation)) := by
  constructor
  · intro hd pBuf
    simp [usbCommWrite, lookupOpen, hfind, hst, hd]
  · intro hd v
    simp [setPhase, legacySet, lookupOpen, hfind, hst, hd]

/-- C1 witness: on the sample manager, the raw write against the Legacy
device and `setPhase` against the HS9000 device both yield
`UnsupportedOperation`. -/
theorem dialect_mismatch_unsupported_witness :
    usbCommWrite sampleM "H1234" "FREQ:1000" =
      (sampleM, Except.error HolzError.UnsupportedOperation) ∧
    setPhase sampleM "HS01" 5 =
      (sampleM, Except.error HolzError.UnsupportedOperation) :=
  ⟨(dialect_mismatch_unsupported sampleM "H1234" recL rfl rfl).1 rfl "FREQ:1000",
   (dialect_mismatch_unsupported sampleM "HS01" recH rfl rfl).2 rfl 5⟩

/-- C4: opening a serial that is neither in the Registry nor reported
attached by the transport fails with `DeviceNotFound` and leaves the
manager unchanged — in particular no `DeviceRecord` in the `Open` state is
created. -/
theorem openDevice_not_found (m : Manager) (s : String)
    (hrec : findRecord m s = none)
    (hatt : m.attached.find? (fun p => p.1 == s) = none) :
    openDevice m s = (m, Except.error HolzError.DeviceNotFound) := by
  simp [openDevice, hrec, hatt]

/-- C4 witness: opening an unknown serial on the sample manager fails with
`DeviceNotFound`. -/
theorem openDevice_not_found_witness :
    openDevice sampleM "NOPE" = (sampleM, Except.error HolzError.DeviceNotFound) :=
  openDevice_not_found sampleM "NOPE" rfl rfl

/-- C5: after any successful open, a second `openDevice` of the same serial
without an intervening close is a non-error no-op success: it returns the
same handle identity, leaves the manager unchanged, and in particular does
not create a second Transport connection. -/
theorem openDevice_second_noop (m : Manager) (s : String) (h : Nat)
    (hok : (openDevice m s).2 = Except.ok h) :
    openDevice (openDevice m s).1 s = ((openDevice m s).1, Except.ok h) ∧
    (openDevice (openDevice m s).1 s).1.connections = (openDevice m s).1.connections := by
  obtain ⟨r, hfind, hst, hh⟩ := openDevice_ok_state m s h hok
  have hnoop := openDevice_of_open (openDevice m s).1 s r hfind hst
  rw [hh] at hnoop
  exact ⟨hnoop, by rw [hnoop]⟩

/-- C5 witness: opening the Legacy device twice from the fresh sample
manager returns the same handle and creates no second connection. -/
theorem openDevice_second_noop_witness :
    openDevice (openDevice startM "H1234").1 "H1234" =
      ((openDevice startM "H1234").1, Except.ok 0) ∧
    (openDevice (openDevice startM "H1234").1 "H1234").1.connections =
      (openDevice startM "H1234").1.connections :=
  openDevice_second_noop startM "H1234" 0 rfl

/-- C7: `close_all` always succeeds and is idempotent: from any state it
returns a non-error result and leaves the Registry empty, and a second
call also returns a non-error result, leaves the Registry empty, and does
not change the state further. -/
theorem close_all_idempotent (m : Manager) :
    (close_all m).2 = Except.ok () ∧
    (close_all m).1.records = [] ∧
    (close_all (close_all m).1).2 = Except.ok () ∧
    (close_all (close_all m).1).1.records = [] ∧
    (close_all (close_all m).1).1 = (close_all m).1 :=
  ⟨rfl, rfl, rfl, rfl, rfl⟩

/-- C6: on an open Legacy-dialect device, `setFrequency` succeeds with
status 0 and a subsequent `readFrequency` returns exactly the frequency
that was set, for any value in the 64-bit signed representable range. -/
theorem setFrequency_readFrequency_roundtrip (m : Manager) (s : String)
    (r : DeviceRecord) (f : Int)
    (hfind : findRecord m s = some r) (hst : r.recState = RecState.Opened)
    (hd : r.dialect = Dialect.Legacy) (_hrange : inRange64 f) :
    (setFrequency m s f).2 = Except.ok 0 ∧
    (readFrequency (setFrequency m s f).1 s).2 = Except.ok f := by
  have hm : (setFrequency m s f).1 =
      { m with records := m.records.map (fun q => if q.serial == s then { q with dev := { q.dev with frequency := f } } else q) } := by
    simp [setFrequency, legacySet, lookupOpen, hfind, hst, hd]
  have hfind1 : findRecord (setFrequency m s f).1 s =
      some { r with dev := { r.dev with frequency := f } } := by
    rw [hm]
    unfold findRecord
    have hmap := find?_serial_map m.records s
      (fun q => { q with dev := { q.dev with frequency := f } }) (fun q => rfl)
    unfold findRecord at hfind
    simp only []
    rw [hmap, hfind]
    rfl
  constructor
  · simp [setFrequency, legacySet, lookupOpen, hfind, hst, hd]
  · simp [readFrequency, legacyRead, lookupOpen, hfind1, hst, hd]

/-- C6 witness: setting 3000000000 Hz on the sample Legacy device and
reading it back returns exactly 3000000000. -/
theorem setFrequency_readFrequency_roundtrip_witness :
    (setFrequency sampleM "H1234" 3000000000).2 = Except.ok 0 ∧
    (readFrequency (setFrequency sampleM "H1234" 3000000000).1 "H1234").2 =
      Except.ok 3000000000 :=
  setFrequency_readFrequency_roundtrip sampleM "H1234" recL 3000000000
    rfl rfl rfl (by constructor <;> decide)

/-- C8: every string-encoded Legacy setter is exactly the corresponding
numeric setter preceded by the string-to-value parse step: whenever the
string parses to `v`, the string form returns the same result and produces
the same manager state as the numeric form applied to `v`. -/
theorem string_setters_parse_then_set (m : Manager) (s str : String) (v : Int)
    (hp : parseValue str = some v) :
    setPowerS m s str = setPower m s v ∧
    setPhaseS m s str = setPhase m s v ∧
    setFrequencyS m s str = setFrequency m s v ∧
    setFMDeviationS m s str = setFMDeviation m s v ∧
    setPMDeviationS m s str = setPMDeviation m s v := by
  refine ⟨?_, ?_, ?_, ?_, ?_⟩
  · unfold setPowerS
    rw [hp]
    rfl
  · unfold setPhaseS
    rw [hp]
    rfl
  · unfold setFrequencyS
    rw [hp]
    rfl
  · unfold setFMDeviationS
    rw [hp]
    rfl
  · unfold setPMDeviationS
    rw [hp]
    rfl

/-- C8 witness: the string "1500MHz" parses to 1500 and each string setter
coincides with its numeric twin on the sample manager. -/
theorem string_setters_parse_then_set_witness :
    setPowerS sampleM "H1234" "1500MHz" = setPower sampleM "H1234" 1500 ∧
    setPhaseS sampleM "H1234" "1500MHz" = setPhase sampleM "H1234" 1500 ∧
    setFrequencyS sampleM "H1234" "1500MHz" = setFrequency sampleM "H1234" 1500 ∧
    setFMDeviationS sampleM "H1234" "1500MHz" = setFMDeviation sampleM "H1234" 1500 ∧
    setPMDeviationS sampleM "H1234" "1500MHz" = setPMDeviation sampleM "H1234" 1500 :=
  string_setters_parse_then_set sampleM "H1234" "1500MHz" 1500 (by decide)

/-- C9: `deviceAttached` returns true exactly when the transport's attached
set contains the serial, and it leaves the manager (registry and all device
state) unchanged. -/
theorem deviceAttached_iff_and_frame (m : Manager) (s : String) :
    (deviceAttached m s).1 = m ∧
    ((deviceAttached m s).2 = true ↔ ∃ d, (s, d) ∈ m.attached) :=
  ⟨rfl, attachedLookup_isSome m.attached s⟩

/-- Every Legacy read either returns the genuine stored instrument value of
an open Legacy device, or a typed error — never a default number. -/
theorem legacyRead_definite (m : Manager) (s : String) (proj : DeviceState → Int) :
    (∃ r, findRecord m s = some r ∧ r.recState = RecState.Opened ∧
      r.dialect = Dialect.Legacy ∧ (legacyRead m s proj).2 = Except.ok (proj r.dev)) ∨
    (∃ e, (legacyRead m s proj).2 = Except.error e) := by
  cases hr : findRecord m s with
  | none =>
    exact Or.inr ⟨HolzError.DeviceNotFound, by simp [legacyRead, lookupOpen, hr]⟩
  | some r =>
    cases hst : r.recState with
    | Opened =>
      cases hd : r.dialect with
      | Legacy =>
        exact Or.inl ⟨r, rfl, hst, hd, by simp [legacyRead, lookupOpen, hr, hst, hd]⟩
      | HS9000 =>
        exact Or.inr ⟨HolzError.UnsupportedOperation,
          by simp [legacyRead, lookupOpen, hr, hst, hd]⟩
    | Discovered =>
      exact Or.inr ⟨HolzError.DeviceNotFound, by simp [legacyRead, lookupOpen, hr, hst]⟩
    | Closed =>
      exact Or.inr ⟨HolzError.DeviceNotFound, by simp [legacyRead, lookupOpen, hr, hst]⟩
    | Faulted =>
      exact Or.inr ⟨HolzError.DeviceFaulted, by simp [legacyRead, lookupOpen, hr, hst]⟩

/-- C3: each public read — `readPower`, `readPhase`, `readFrequency` and
the query `isRFPowerOn` — returns either a definite success value that is
the genuine stored reading of an open Legacy device, or a definite typed
error; no call returns a sentinel number standing in for failure. -/
theorem reads_definite_success_or_error (m : Manager) (s : String) :
    ((∃ r, findRecord m s = some r ∧ r.recState = RecState.Opened ∧
        r.dialect = Dialect.Legacy ∧ (readPower m s).2 = Except.ok r.dev.power) ∨
      (∃ e, (readPower m s).2 = Except.error e)) ∧
    ((∃ r, findRecord m s = some r ∧ r.recState = RecState.Opened ∧
        r.dialect = Dialect.Legacy ∧ (readPhase m s).2 = Except.ok r.dev.phase) ∨
      (∃ e, (readPhase m s).2 = Except.error e)) ∧
    ((∃ r, findRecord m s = some r ∧ r.recState = RecState.Opened ∧
        r.dialect = Dialect.Legacy ∧ (readFrequency m s).2 = Except.ok r.dev.frequency) ∨
      (∃ e, (readFrequency m s).2 = Except.error e)) ∧
    ((∃ r, findRecord m s = some r ∧ r.recState = RecState.Opened ∧
        r.dialect = Dialect.Legacy ∧
        (isRFPowerOn m s).2 = Except.ok (if r.dev.powerOn then 1 else 0)) ∨
      (∃ e, (isRFPowerOn m s).2 = Except.error e)) :=
  ⟨legacyRead_definite m s (fun d => d.power),
   legacyRead_definite m s (fun d => d.phase),
   legacyRead_definite m s (fun d => d.frequency),
   legacyRead_definite m s (fun d => if d.powerOn then 1 else 0)⟩

/-- C2: scheduling of the per-device channels.  First, FIFO per serial: in
every state reachable by the channel scheduler from an initial state with
pending queues `q` and an empty trace, the completions observed for any
serial, in completion order, followed by that serial's remaining queue,
equal the submitted queue — completion order equals submission order.
Second, independence across serials: whenever the head command of some
serial's queue is not blocked, a scheduler step completing exactly that
command exists and touches no other serial's queue, regardless of how slow
or blocked the commands of every other serial are. -/
theorem channel_fifo_and_independent (blocked : String → Nat → Bool)
    (q : String → List Nat) :
    (∀ st, ChanReach blocked { queues := q, trace := [] } st →
      ∀ s, completionsFor s st.trace ++ st.queues s = q s) ∧
    (∀ st s c rest, st.queues s = c :: rest → blocked s c = false →
      ∃ st2, ChanStep blocked st st2 ∧ st2.trace = st.trace ++ [(s, c)] ∧
        st2.queues s = rest ∧ ∀ t, t ≠ s → st2.queues t = st.queues t) := by
  constructor
  · intro st hreach s
    induction hreach with
    | refl => simp [completionsFor]
    | tail _ hstep ih =>
      cases hstep with
      | complete s1 c rest hq hb =>
        dsimp only
        rw [completionsFor_append_single]
        by_cases h : s1 = s
        · subst h
          rw [if_pos rfl, if_pos rfl, List.append_assoc]
          have hcons : [c] ++ rest = c :: rest := rfl
          rw [hcons, ← hq]
          exact ih
        · rw [if_neg h, if_neg (fun hh => h hh.symm)]
          simpa using ih
  · intro st s c rest hq hb
    refine ⟨_, ChanStep.complete st s c rest hq hb, rfl, ?_, ?_⟩
    · simp
    · intro t ht
      simp [ht]

/-- A scheduler configuration for the C2 witness: every command of serial
"A" is blocked, nothing else is. -/
def blockedOnA (s : String) (_c : Nat) : Bool := s == "A"

/-- Submission queues for the C2 witness: one command pending on serial "A"
and one on serial "B". -/
def twoQueues (t : String) : List Nat :=
  if t = "A" then [0] else if t = "B" then [7] else []

/-- The initial channel state for the C2 witness. -/
def chanInit : ChanState := { queues := twoQueues, trace := [] }

/-- C2 witness: at the initial state the FIFO equation holds for serial
"B", and although serial "A" is blocked, the pending command of serial "B"
can complete in one step without touching any other serial's queue. -/
theorem channel_fifo_and_independent_witness :
    (completionsFor "B" chanInit.trace ++ chanInit.queues "B" = twoQueues "B") ∧
    (∃ st2, ChanStep blockedOnA chanInit st2 ∧
      st2.trace = chanInit.trace ++ [("B", 7)] ∧ st2.queues "B" = [] ∧
      ∀ t, t ≠ "B" → st2.queues t = chanInit.queues t) :=
  ⟨(channel_fifo_and_independent blockedOnA twoQueues).1 chanInit
      Relation.ReflTransGen.refl "B",
   (channel_fifo_and_independent blockedOnA twoQueues).2 chanInit "B" 7 []
      (by decide) (by decide)⟩
